import Mathlib

/-!
Shallow embedding of the CSVSheetsBridge KPI pipeline
(`src/appsflyer_processor.py`, `src/appsflyer_processor_adapted.py`,
`src/sheets_updater.py`, `src/sheets_client.py`).

Numeric cells are modelled as exact rationals; the float value `np.inf`
produced by the divide-by-zero sentinel convention is modelled by the
two-constructor type `Flt`.  Pandas column operations become functions on
Lean structures and lists; fractional ("average on ties") ranking is the
`frank`/`frankDesc` functions below.
-/

namespace CSVBridge

/-- A pandas float cell that is either a finite rational or `np.inf`.
`-inf` never arises in this pipeline (costs and user counts are finite and
denominators are guarded by `> 0` conditions), so it is not represented. -/
inductive Flt where
  | fin : ℚ → Flt
  | inf : Flt
deriving DecidableEq, Repr

/-- The float comparison `x > 0` as evaluated by pandas on a `Flt` cell
(`np.inf > 0` is true). -/
def Flt.gtZeroB : Flt → Bool
  | .fin q => decide (0 < q)
  | .inf => true

/-- Extract the finite value of a cell, if any. -/
def Flt.toFin? : Flt → Option ℚ
  | .fin q => some q
  | .inf => none

/-- One normalized row's volume metrics, after
`clean_and_normalize_columns` has coerced every numeric field
(`appsflyer_processor_adapted.py` lines 70-82). -/
structure VolumeRow where
  cost : ℚ
  impressions : ℚ
  clicks : ℚ
  installs : ℚ
  signups : ℚ
  d1_retained_users : ℚ
deriving DecidableEq, Repr

/-- A row together with the derived KPI columns added by `calculate_kpis`. -/
structure KpiRow extends VolumeRow where
  cpc : ℚ
  cpi : ℚ
  ctr : ℚ
  d1_retained_cac : Flt
  d1_retention_rate : ℚ
  signup_rate : ℚ
  cost_per_signup : Flt
deriving DecidableEq, Repr

/-- `AppsflyerDataProcessorAdapted.calculate_kpis`
(`appsflyer_processor_adapted.py` lines 157-211): each ratio is an
`np.where(denominator > 0, numerator / denominator, default)`, where the
default is `0` for `cpc`, `cpi`, `ctr`, `d1_retention_rate`, `signup_rate`
and `np.inf` for `d1_retained_cac` and `cost_per_signup`.
The base processor's `calculate_kpis` (`appsflyer_processor.py` lines
151-198) computes the same five shared columns by the same formulas. -/
def calculate_kpis (r : VolumeRow) : KpiRow :=
  { r with
    cpc := if 0 < r.clicks then r.cost / r.clicks else 0
    cpi := if 0 < r.installs then r.cost / r.installs else 0
    ctr := if 0 < r.impressions then r.clicks / r.impressions * 100 else 0
    d1_retained_cac :=
      if 0 < r.d1_retained_users then Flt.fin (r.cost / r.d1_retained_users) else Flt.inf
    d1_retention_rate :=
      if 0 < r.installs then r.d1_retained_users / r.installs * 100 else 0
    signup_rate := if 0 < r.installs then r.signups / r.installs * 100 else 0
    cost_per_signup := if 0 < r.signups then Flt.fin (r.cost / r.signups) else Flt.inf }

/-- C2: for every row, `calculate_kpis` yields `cpi = 0` when `installs = 0`,
`cpc = 0` when `clicks = 0`, `ctr = 0` when `impressions = 0`,
`d1_retention_rate = 0` when `installs = 0` (real zeros, never an error),
while `d1_retained_cac = +∞` when `d1_retained_users = 0` and
`cost_per_signup = +∞` when `signups = 0`; for a nonzero (hence, volume
counts being non-negative, positive) denominator each ratio equals the
stated quotient, with `ctr` and `d1_retention_rate` scaled by 100. -/
theorem calculate_kpis_zero_denominator_policy (r : VolumeRow) :
    (r.clicks = 0 → (calculate_kpis r).cpc = 0) ∧
    (r.installs = 0 → (calculate_kpis r).cpi = 0) ∧
    (r.impressions = 0 → (calculate_kpis r).ctr = 0) ∧
    (r.installs = 0 → (calculate_kpis r).d1_retention_rate = 0) ∧
    (r.d1_retained_users = 0 → (calculate_kpis r).d1_retained_cac = Flt.inf) ∧
    (r.signups = 0 → (calculate_kpis r).cost_per_signup = Flt.inf) ∧
    (r.clicks ≠ 0 → 0 ≤ r.clicks → (calculate_kpis r).cpc = r.cost / r.clicks) ∧
    (r.installs ≠ 0 → 0 ≤ r.installs → (calculate_kpis r).cpi = r.cost / r.installs) ∧
    (r.impressions ≠ 0 → 0 ≤ r.impressions →
      (calculate_kpis r).ctr = r.clicks / r.impressions * 100) ∧
    (r.installs ≠ 0 → 0 ≤ r.installs →
      (calculate_kpis r).d1_retention_rate = r.d1_retained_users / r.installs * 100) ∧
    (r.d1_retained_users ≠ 0 → 0 ≤ r.d1_retained_users →
      (calculate_kpis r).d1_retained_cac = Flt.fin (r.cost / r.d1_retained_users)) ∧
    (r.signups ≠ 0 → 0 ≤ r.signups →
      (calculate_kpis r).cost_per_signup = Flt.fin (r.cost / r.signups)) := by
  refine ⟨?_, ?_, ?_, ?_, ?_, ?_, ?_, ?_, ?_, ?_, ?_, ?_⟩ <;>
      intro h <;> try intro h2
  all_goals simp only [calculate_kpis]
  · rw [if_neg (by rw [h]; exact lt_irrefl 0)]
  · rw [if_neg (by rw [h]; exact lt_irrefl 0)]
  · rw [if_neg (by rw [h]; exact lt_irrefl 0)]
  · rw [if_neg (by rw [h]; exact lt_irrefl 0)]
  · rw [if_neg (by rw [h]; exact lt_irrefl 0)]
  · rw [if_neg (by rw [h]; exact lt_irrefl 0)]
  · rw [if_pos (lt_of_le_of_ne h2 (Ne.symm h))]
  · rw [if_pos (lt_of_le_of_ne h2 (Ne.symm h))]
  · rw [if_pos (lt_of_le_of_ne h2 (Ne.symm h))]
  · rw [if_pos (lt_of_le_of_ne h2 (Ne.symm h))]
  · rw [if_pos (lt_of_le_of_ne h2 (Ne.symm h))]
  · rw [if_pos (lt_of_le_of_ne h2 (Ne.symm h))]

/-- Witness for `calculate_kpis_zero_denominator_policy` at a concrete row:
all-zero denominators give the zero/infinity defaults, and a positive
denominator gives the quotient. -/
theorem calculate_kpis_zero_denominator_policy_witness :
    (calculate_kpis ⟨10, 0, 0, 0, 0, 0⟩).cpc = 0 ∧
    (calculate_kpis ⟨10, 0, 0, 0, 0, 0⟩).d1_retained_cac = Flt.inf ∧
    (calculate_kpis ⟨10, 0, 0, 0, 0, 0⟩).cost_per_signup = Flt.inf ∧
    (calculate_kpis ⟨10, 0, 4, 0, 0, 0⟩).cpc = 10 / 4 := by
  refine ⟨?_, ?_, ?_, ?_⟩
  · exact (calculate_kpis_zero_denominator_policy ⟨10, 0, 0, 0, 0, 0⟩).1 rfl
  · exact (calculate_kpis_zero_denominator_policy ⟨10, 0, 0, 0, 0, 0⟩).2.2.2.2.1 rfl
  · exact (calculate_kpis_zero_denominator_policy ⟨10, 0, 0, 0, 0, 0⟩).2.2.2.2.2.1 rfl
  · exact (calculate_kpis_zero_denominator_policy ⟨10, 0, 4, 0, 0, 0⟩).2.2.2.2.2.2.1
      (by norm_num) (by norm_num)

/-- Pandas fractional ("average") ascending rank of the value `x` within the
column `l`, the semantics of `Series.rank(ascending=True)`: the number of
strictly smaller entries plus the average position among the entries equal
to `x`. -/
def frank (l : List ℚ) (x : ℚ) : ℚ :=
  (l.countP (fun y => decide (y < x)) : ℚ) +
    ((l.countP (fun y => decide (y = x)) : ℚ) + 1) / 2

/-- Pandas fractional descending rank, the semantics of
`Series.rank(ascending=False)` (used for `ctr`, where higher is better). -/
def frankDesc (l : List ℚ) (x : ℚ) : ℚ :=
  (l.countP (fun y => decide (x < y)) : ℚ) +
    ((l.countP (fun y => decide (y = x)) : ℚ) + 1) / 2

lemma countP_lt_add_eq_le (l : List ℚ) {a b : ℚ} (hab : a < b) :
    l.countP (fun y => decide (y < a)) + l.countP (fun y => decide (y = a))
      ≤ l.countP (fun y => decide (y < b)) := by
  induction l with
  | nil => simp
  | cons y t ih =>
      simp only [List.countP_cons, decide_eq_true_eq]
      by_cases h1 : y < a
      · have hb : y < b := h1.trans hab
        rw [if_pos h1, if_neg (ne_of_lt h1), if_pos hb]
        omega
      · by_cases h2 : y = a
        · have hb : y < b := by rw [h2]; exact hab
          rw [if_neg h1, if_pos h2, if_pos hb]
          omega
        · by_cases h3 : y < b
          · rw [if_neg h1, if_neg h2, if_pos h3]
            omega
          · rw [if_neg h1, if_neg h2, if_neg h3]
            omega

lemma one_le_countP_eq (l : List ℚ) {a : ℚ} (ha : a ∈ l) :
    1 ≤ l.countP (fun y => decide (y = a)) :=
  List.countP_pos_iff.2 ⟨a, ha, by simp⟩

/-- Fractional ranking is strictly monotone: an element of the column ranks
strictly below any strictly larger value. -/
lemma frank_lt_frank (l : List ℚ) {a b : ℚ} (ha : a ∈ l) (hab : a < b) :
    frank l a < frank l b := by
  unfold frank
  have h1 := countP_lt_add_eq_le l hab
  have h2 := one_le_countP_eq l ha
  have h3 : (0 : ℚ) ≤ (l.countP (fun y => decide (y = b)) : ℚ) := by positivity
  have h1q : (l.countP (fun y => decide (y < a)) : ℚ)
      + (l.countP (fun y => decide (y = a)) : ℚ)
      ≤ (l.countP (fun y => decide (y < b)) : ℚ) := by exact_mod_cast h1
  have h2q : (1 : ℚ) ≤ (l.countP (fun y => decide (y = a)) : ℚ) := by exact_mod_cast h2
  linarith

/-- The sentinel substitution of `rank_content_performance`:
`d1_retained_cac.replace([np.inf, -np.inf], 9999999)`
(`appsflyer_processor_adapted.py` line 218, `appsflyer_processor.py`
line 276). `-inf` never occurs in this pipeline. -/
def d1_retained_cac_for_rank : Flt → ℚ
  | .fin q => q
  | .inf => 9999999

/-- Composite score of the adapted processor
(`appsflyer_processor_adapted.py` lines 228-242): weighted sum with the
hardcoded weights 0.4 / 0.25 / 0.2 / 0.15. -/
def composite_score_adapted (rcac rcpi rcpc rctr : ℚ) : ℚ :=
  rcac * (2 / 5) + rcpi * (1 / 4) + rcpc * (1 / 5) + rctr * (3 / 20)

/-- Performance grade labels produced by `pd.cut(..., labels=['A','B','C','D'])`. -/
inductive Grade where
  | A | B | C | D
deriving DecidableEq, Repr

/-- Position of a grade letter in the alphabetical order A < B < C < D. -/
def Grade.idx : Grade → ℕ
  | .A => 0
  | .B => 1
  | .C => 2
  | .D => 3

/-- `pd.cut(overall_rank, bins=[0, 0.2n, 0.5n, 0.8n, n], labels=['A','B','C','D'],
include_lowest=True)` (`appsflyer_processor_adapted.py` lines 248-253,
`appsflyer_processor.py` lines 315-320): half-open intervals closed on the
right, with the first interval additionally closed at 0; values outside
`[0, n]` get no label (NaN). -/
def performance_grade (rank : ℚ) (n : ℕ) : Option Grade :=
  if 0 ≤ rank ∧ rank ≤ n * (1 / 5) then some .A
  else if n * (1 / 5) < rank ∧ rank ≤ n * (1 / 2) then some .B
  else if n * (1 / 2) < rank ∧ rank ≤ n * (4 / 5) then some .C
  else if n * (4 / 5) < rank ∧ rank ≤ n then some .D
  else none

/-- A row with all columns added by `rank_content_performance`. -/
structure RankedRow extends KpiRow where
  cac_for_rank : ℚ
  rank_d1_cac : ℚ
  rank_cpi : ℚ
  rank_cpc : ℚ
  rank_ctr : ℚ
  composite_score : ℚ
  overall_rank : ℚ
  performance_grade : Option Grade
deriving DecidableEq, Repr

/-- `AppsflyerDataProcessorAdapted.rank_content_performance`
(`appsflyer_processor_adapted.py` lines 213-256): substitute the 9,999,999
sentinel for infinite CAC in a separate ranking column, rank CAC/CPI/CPC
ascending and CTR descending over the whole table, combine the four ranks
into the weighted composite score, rank the composite ascending to get
`overall_rank`, and bucket `overall_rank` into grades. -/
def rank_content_performance (l : List KpiRow) : List RankedRow :=
  let cacCol := l.map fun r => d1_retained_cac_for_rank r.d1_retained_cac
  let cpiCol := l.map fun r => r.cpi
  let cpcCol := l.map fun r => r.cpc
  let ctrCol := l.map fun r => r.ctr
  let score : KpiRow → RankedRow := fun r =>
    let fr := d1_retained_cac_for_rank r.d1_retained_cac
    let rcac := frank cacCol fr
    let rcpi := frank cpiCol r.cpi
    let rcpc := frank cpcCol r.cpc
    let rctr := frankDesc ctrCol r.ctr
    { toKpiRow := r
      cac_for_rank := fr
      rank_d1_cac := rcac
      rank_cpi := rcpi
      rank_cpc := rcpc
      rank_ctr := rctr
      composite_score := composite_score_adapted rcac rcpi rcpc rctr
      overall_rank := 0
      performance_grade := none }
  let scored := l.map score
  let compCol := scored.map fun s => s.composite_score
  scored.map fun s =>
    { s with
      overall_rank := frank compCol s.composite_score
      performance_grade := performance_grade (frank compCol s.composite_score) l.length }

lemma rank_content_performance_length (l : List KpiRow) :
    (rank_content_performance l).length = l.length := by
  simp [rank_content_performance]

/-- The `rank_d1_cac` column of row `i` is the fractional rank of its
sentinel-substituted CAC within the sentinel-substituted CAC column. -/
lemma rank_content_performance_rank_d1_cac (l : List KpiRow) (i : ℕ)
    (hi : i < l.length) (hi' : i < (rank_content_performance l).length) :
    ((rank_content_performance l).get ⟨i, hi'⟩).rank_d1_cac
      = frank (l.map fun r => d1_retained_cac_for_rank r.d1_retained_cac)
          (d1_retained_cac_for_rank (l.get ⟨i, hi⟩).d1_retained_cac) := by
  simp [rank_content_performance, List.get_eq_getElem, List.getElem_map]

/-- The stored `d1_retained_cac` column of row `i` is passed through
`rank_content_performance` unchanged. -/
lemma rank_content_performance_cac_stable (l : List KpiRow) (i : ℕ)
    (hi : i < l.length) (hi' : i < (rank_content_performance l).length) :
    ((rank_content_performance l).get ⟨i, hi'⟩).d1_retained_cac
      = (l.get ⟨i, hi⟩).d1_retained_cac := by
  simp [rank_content_performance, List.get_eq_getElem, List.getElem_map]

/-- C1 is refuted on the code: with two aggregated rows, one with
`d1_retained_users = 0` (cost 100) and one with `d1_retained_users = 1` and
cost 20,000,000 (finite CAC 20,000,000, larger than the 9,999,999 sentinel),
the zero-retention row receives the strictly BETTER (smaller) `rank_d1_cac`,
so it does not rank worse than every positive-retention record regardless of
cost. -/
theorem sentinel_rank_counterexample :
    (calculate_kpis ⟨100, 0, 0, 0, 0, 0⟩).d1_retained_cac = Flt.inf ∧
    ((0 : ℚ) < (20000000 : ℚ)) ∧
    ((rank_content_performance
        (List.map calculate_kpis
          [⟨100, 0, 0, 0, 0, 0⟩, ⟨20000000, 0, 0, 0, 0, 1⟩])).get
      ⟨0, by simp [rank_content_performance_length]⟩).rank_d1_cac
      < ((rank_content_performance
          (List.map calculate_kpis
            [⟨100, 0, 0, 0, 0, 0⟩, ⟨20000000, 0, 0, 0, 0, 1⟩])).get
        ⟨1, by simp [rank_content_performance_length]⟩).rank_d1_cac := by
  refine ⟨by norm_num [calculate_kpis], by norm_num, ?_⟩
  rw [rank_content_performance_rank_d1_cac _ 0 (by norm_num)
        (by simp [rank_content_performance_length]),
      rank_content_performance_rank_d1_cac _ 1 (by norm_num)
        (by simp [rank_content_performance_length])]
  norm_num [calculate_kpis, d1_retained_cac_for_rank, frank,
    List.countP_cons, List.countP_nil]

/-- C1 (amended): for every aggregated record with `d1_retained_users = 0`,
`d1_retained_cac` is positive infinity, and after
`rank_content_performance` its `rank_d1_cac` is strictly worse (greater)
than that of every record with `d1_retained_users > 0` whose finite CAC is
strictly below the ranking sentinel 9,999,999 (not regardless of cost: a
finite CAC at or above the sentinel can tie with or beat the infinite one). -/
theorem infinite_cac_ranks_worse (l : List VolumeRow) (i j : ℕ)
    (hi : i < l.length) (hj : j < l.length)
    (hi' : i < (rank_content_performance (l.map calculate_kpis)).length)
    (hj' : j < (rank_content_performance (l.map calculate_kpis)).length)
    (h0 : (l.get ⟨i, hi⟩).d1_retained_users = 0)
    (h1 : 0 < (l.get ⟨j, hj⟩).d1_retained_users)
    (hs : (l.get ⟨j, hj⟩).cost / (l.get ⟨j, hj⟩).d1_retained_users < 9999999) :
    (calculate_kpis (l.get ⟨i, hi⟩)).d1_retained_cac = Flt.inf ∧
    ((rank_content_performance (l.map calculate_kpis)).get ⟨j, hj'⟩).rank_d1_cac
      < ((rank_content_performance (l.map calculate_kpis)).get ⟨i, hi'⟩).rank_d1_cac := by
  have hmi : i < (l.map calculate_kpis).length := by simpa using hi
  have hmj : j < (l.map calculate_kpis).length := by simpa using hj
  have hcaci : (calculate_kpis (l.get ⟨i, hi⟩)).d1_retained_cac = Flt.inf := by
    simp only [calculate_kpis]
    rw [if_neg (by rw [h0]; exact lt_irrefl 0)]
  have hcacj : (calculate_kpis (l.get ⟨j, hj⟩)).d1_retained_cac
      = Flt.fin ((l.get ⟨j, hj⟩).cost / (l.get ⟨j, hj⟩).d1_retained_users) := by
    simp only [calculate_kpis]
    rw [if_pos h1]
  have hgi : ((l.map calculate_kpis).get ⟨i, hmi⟩) = calculate_kpis (l.get ⟨i, hi⟩) := by
    simp
  have hgj : ((l.map calculate_kpis).get ⟨j, hmj⟩) = calculate_kpis (l.get ⟨j, hj⟩) := by
    simp
  have hfin : ∀ q : ℚ, d1_retained_cac_for_rank (Flt.fin q) = q := fun _ => rfl
  have hinf : d1_retained_cac_for_rank Flt.inf = 9999999 := rfl
  refine ⟨hcaci, ?_⟩
  rw [rank_content_performance_rank_d1_cac _ j hmj hj',
      rank_content_performance_rank_d1_cac _ i hmi hi', hgi, hgj, hcaci, hcacj,
      hfin, hinf]
  apply frank_lt_frank
  · have hmem := List.get_mem (l.map calculate_kpis) j hmj
    have hmem2 : d1_retained_cac_for_rank
        (((l.map calculate_kpis).get ⟨j, hmj⟩).d1_retained_cac) ∈
        (l.map calculate_kpis).map
          (fun r : KpiRow => d1_retained_cac_for_rank r.d1_retained_cac) :=
      List.mem_map_of_mem _ hmem
    rw [hgj, hcacj, hfin] at hmem2
    exact hmem2
  · exact hs

/-- Witness for `infinite_cac_ranks_worse`: in a two-row table where row 0
has zero retained users and row 1 has one retained user at cost 5, row 0's
CAC is infinite and its rank is strictly worse than row 1's. -/
theorem infinite_cac_ranks_worse_witness :
    (calculate_kpis ⟨100, 0, 0, 0, 0, 0⟩).d1_retained_cac = Flt.inf ∧
    ((rank_content_performance
        (List.map calculate_kpis
          [⟨100, 0, 0, 0, 0, 0⟩, ⟨5, 0, 0, 0, 0, 1⟩])).get
      ⟨1, by simp [rank_content_performance_length]⟩).rank_d1_cac
      < ((rank_content_performance
          (List.map calculate_kpis
            [⟨100, 0, 0, 0, 0, 0⟩, ⟨5, 0, 0, 0, 0, 1⟩])).get
        ⟨0, by simp [rank_content_performance_length]⟩).rank_d1_cac :=
  infinite_cac_ranks_worse [⟨100, 0, 0, 0, 0, 0⟩, ⟨5, 0, 0, 0, 0, 1⟩] 0 1
    (by norm_num) (by norm_num)
    (by simp [rank_content_performance_length])
    (by simp [rank_content_performance_length])
    (by norm_num) (by norm_num) (by norm_num)

/-- Modelled from the claim's words for comparison: four contiguous buckets
with boundaries at ranks `0.2N`, `0.5N`, `0.8N`, `N` mapped to grades
A, B, C, D with the LOWEST bound of each bucket included. -/
def performance_grade_lowest (rank : ℚ) (n : ℕ) : Option Grade :=
  if 0 ≤ rank ∧ rank < n * (1 / 5) then some .A
  else if n * (1 / 5) ≤ rank ∧ rank < n * (1 / 2) then some .B
  else if n * (1 / 2) ≤ rank ∧ rank < n * (4 / 5) then some .C
  else if n * (4 / 5) ≤ rank ∧ rank ≤ n then some .D
  else none

/-- C4 is refuted on the bucket-boundary convention: with N = 5 records, the
record of `overall_rank` 1 = 0.2N receives grade A from the code (`pd.cut`
includes the UPPER bound of each bucket), while the claim's
lowest-bound-included partition would assign grade B. -/
theorem grade_bucket_counterexample :
    performance_grade 1 5 = some Grade.A ∧
    performance_grade_lowest 1 5 = some Grade.B ∧
    performance_grade 1 5 ≠ performance_grade_lowest 1 5 := by
  refine ⟨?_, ?_, ?_⟩
  · norm_num [performance_grade]
  · norm_num [performance_grade_lowest]
  · norm_num [performance_grade, performance_grade_lowest]
    try decide

/-- The right endpoint of each grade's `pd.cut` interval, for N records. -/
def gradeUpper (n : ℕ) : Grade → ℚ
  | .A => (n : ℚ) * (1 / 5)
  | .B => (n : ℚ) * (1 / 2)
  | .C => (n : ℚ) * (4 / 5)
  | .D => (n : ℚ)

lemma performance_grade_le_upper {r : ℚ} {n : ℕ} {g : Grade}
    (h : performance_grade r n = some g) : r ≤ gradeUpper n g := by
  unfold performance_grade at h
  split_ifs at h with c1 c2 c3 c4
  · injection h with h; subst h; exact c1.2
  · injection h with h; subst h; exact c2.2
  · injection h with h; subst h; exact c3.2
  · injection h with h; subst h; exact c4.2

lemma performance_grade_gt_lower {r : ℚ} {n : ℕ} {g g2 : Grade}
    (h : performance_grade r n = some g) (hlt : g2.idx < g.idx) :
    gradeUpper n g2 < r := by
  have hn0 : (0 : ℚ) ≤ (n : ℚ) := Nat.cast_nonneg n
  unfold performance_grade at h
  split_ifs at h with c1 c2 c3 c4
  · injection h with h; subst h
    cases g2 <;> simp [Grade.idx] at hlt
  · injection h with h; subst h
    cases g2 with
    | A => exact c2.1
    | B => simp [Grade.idx] at hlt
    | C => simp [Grade.idx] at hlt
    | D => simp [Grade.idx] at hlt
  · injection h with h; subst h
    cases g2 with
    | A => have := c3.1; simp only [gradeUpper]; linarith
    | B => exact c3.1
    | C => simp [Grade.idx] at hlt
    | D => simp [Grade.idx] at hlt
  · injection h with h; subst h
    cases g2 with
    | A => have := c4.1; simp only [gradeUpper]; linarith
    | B => have := c4.1; simp only [gradeUpper]; linarith
    | C => exact c4.1
    | D => simp [Grade.idx] at hlt

/-- C4 (amended): `performance_grade` partitions the rank range `[0, N]`
into four contiguous buckets with boundaries at `0.2N`, `0.5N`, `0.8N`, `N`
mapped to A, B, C, D, each bucket including its UPPER bound (and the first
also its lower bound 0); grade assignment is monotone in `overall_rank`:
a lower rank never receives a later grade letter. -/
theorem performance_grade_monotone (n : ℕ) (r1 r2 : ℚ) (g1 g2 : Grade)
    (hn : 1 ≤ n)
    (h1 : performance_grade r1 n = some g1)
    (h2 : performance_grade r2 n = some g2)
    (h12 : r1 ≤ r2) :
    g1.idx ≤ g2.idx ∧
    performance_grade (n * (1 / 5)) n = some Grade.A ∧
    performance_grade (n * (1 / 2)) n = some Grade.B ∧
    performance_grade (n * (4 / 5)) n = some Grade.C ∧
    performance_grade (n : ℚ) n = some Grade.D := by
  have hq : (1 : ℚ) ≤ (n : ℚ) := by exact_mod_cast hn
  refine ⟨?_, ?_, ?_, ?_, ?_⟩
  · by_cases hgt : g2.idx < g1.idx
    · exfalso
      have hu := performance_grade_le_upper h2
      have hl := performance_grade_gt_lower h1 hgt
      linarith
    · omega
  · unfold performance_grade
    rw [if_pos ⟨by linarith, le_refl _⟩]
  · unfold performance_grade
    rw [if_neg (by push_neg; intro _; linarith), if_pos ⟨by linarith, le_refl _⟩]
  · unfold performance_grade
    rw [if_neg (by push_neg; intro _; linarith),
        if_neg (by push_neg; intro _; linarith), if_pos ⟨by linarith, le_refl _⟩]
  · unfold performance_grade
    rw [if_neg (by push_neg; intro _; linarith),
        if_neg (by push_neg; intro _; linarith),
        if_neg (by push_neg; intro _; linarith), if_pos ⟨by linarith, le_refl _⟩]

/-- Witness for `performance_grade_monotone` at N = 5 with ranks 1 (grade A)
and 5 (grade D). -/
theorem performance_grade_monotone_witness :
    Grade.idx Grade.A ≤ Grade.idx Grade.D ∧
    performance_grade (((5 : ℕ) : ℚ) * (1 / 5)) 5 = some Grade.A ∧
    performance_grade (((5 : ℕ) : ℚ) * (1 / 2)) 5 = some Grade.B ∧
    performance_grade (((5 : ℕ) : ℚ) * (4 / 5)) 5 = some Grade.C ∧
    performance_grade (((5 : ℕ) : ℚ)) 5 = some Grade.D :=
  performance_grade_monotone 5 1 5 Grade.A Grade.D (by norm_num)
    (by norm_num [performance_grade]) (by norm_num [performance_grade])
    (by norm_num)

/-- C6: `rank_content_performance` never modifies the stored
`d1_retained_cac` of any record — the 9,999,999 sentinel lives only in the
separate `d1_retained_cac_for_rank` column — so a record whose CAC is
`+∞` on input still reports `+∞` after ranking. -/
theorem rank_preserves_stored_cac (l : List KpiRow) (i : ℕ)
    (hi : i < l.length) (hi' : i < (rank_content_performance l).length) :
    ((rank_content_performance l).get ⟨i, hi'⟩).d1_retained_cac
      = (l.get ⟨i, hi⟩).d1_retained_cac ∧
    ((l.get ⟨i, hi⟩).d1_retained_cac = Flt.inf →
      ((rank_content_performance l).get ⟨i, hi'⟩).d1_retained_cac = Flt.inf) := by
  have h := rank_content_performance_cac_stable l i hi hi'
  exact ⟨h, fun hinf => h.trans hinf⟩

/-- Witness for `rank_preserves_stored_cac`: a single zero-retention row
still reports an infinite CAC after ranking. -/
theorem rank_preserves_stored_cac_witness :
    ((rank_content_performance
        (List.map calculate_kpis [⟨100, 0, 0, 0, 0, 0⟩])).get
      ⟨0, by simp [rank_content_performance_length]⟩).d1_retained_cac
      = ((List.map calculate_kpis [⟨100, 0, 0, 0, 0, 0⟩]).get
          ⟨0, by norm_num⟩).d1_retained_cac :=
  (rank_preserves_stored_cac (List.map calculate_kpis [⟨100, 0, 0, 0, 0, 0⟩]) 0
    (by norm_num) (by simp [rank_content_performance_length])).1

/-- Arithmetic mean of a list of rationals (`Series.mean`). -/
def listMean (l : List ℚ) : ℚ := l.sum / l.length

/-- `AppsflyerDataProcessor.get_summary_stats` average CAC
(`appsflyer_processor.py` lines 361-363): the mean over rows whose
`d1_retained_cac` differs from `np.inf` — finite non-positive CACs are
included. -/
def avg_d1_retained_cac_base (cacs : List Flt) : ℚ :=
  listMean (cacs.filterMap Flt.toFin?)

/-- The adapted processor's row filter for the CAC average
(`appsflyer_processor_adapted.py` lines 286-289):
`(d1_retained_cac != np.inf) & (d1_retained_cac > 0)`. -/
def validCac (x : Flt) : Bool := decide (x ≠ Flt.inf) && Flt.gtZeroB x

/-- Selector written from the claim's words: keep a record's CAC exactly
when it is finite and strictly positive. -/
def posFin? : Flt → Option ℚ
  | .fin q => if 0 < q then some q else none
  | .inf => none

/-- `AppsflyerDataProcessorAdapted.get_summary_stats` average CAC
(`appsflyer_processor_adapted.py` lines 286-296): filter by `validCac`,
then the mean if any row survives, else 0. -/
def avg_d1_retained_cac_adapted (cacs : List Flt) : ℚ :=
  let valid := cacs.filter validCac
  if valid.length = 0 then 0 else listMean (valid.filterMap Flt.toFin?)

/-- Modelled from the claim's words: the arithmetic mean of
`d1_retained_cac` taken only over records whose value is finite and
strictly positive (0 when no record qualifies). -/
def avg_d1_retained_cac_spec (cacs : List Flt) : ℚ :=
  let sel := cacs.filterMap posFin?
  if sel.length = 0 then 0 else listMean sel

lemma valid_filterMap_eq (cacs : List Flt) :
    (cacs.filter validCac).filterMap Flt.toFin? = cacs.filterMap posFin? := by
  induction cacs with
  | nil => rfl
  | cons x t ih =>
      cases x with
      | fin q =>
          by_cases h : 0 < q
          · rw [List.filter_cons_of_pos (by simp [validCac, Flt.gtZeroB, h]),
                List.filterMap_cons_some (b := q) (by simp [Flt.toFin?]),
                List.filterMap_cons_some (b := q) (by simp [posFin?, h]), ih]
          · rw [List.filter_cons_of_neg (by simp [validCac, Flt.gtZeroB, h]),
                List.filterMap_cons_none (by simp [posFin?, h]), ih]
      | inf =>
          rw [List.filter_cons_of_neg (by simp [validCac]),
              List.filterMap_cons_none (by simp [posFin?]), ih]

lemma valid_length_eq (cacs : List Flt) :
    (cacs.filter validCac).length
      = ((cacs.filter validCac).filterMap Flt.toFin?).length := by
  induction cacs with
  | nil => rfl
  | cons x t ih =>
      cases x with
      | fin q =>
          by_cases h : 0 < q
          · rw [List.filter_cons_of_pos (by simp [validCac, Flt.gtZeroB, h]),
                List.filterMap_cons_some (b := q) (by simp [Flt.toFin?]),
                List.length_cons, List.length_cons, ih]
          · rw [List.filter_cons_of_neg (by simp [validCac, Flt.gtZeroB, h]), ih]
      | inf =>
          rw [List.filter_cons_of_neg (by simp [validCac]), ih]

/-- C3 is refuted on the base processor: its `get_summary_stats` filters
only `d1_retained_cac != np.inf`, so over the CAC column `[0, 2]` it
reports the mean 1, while the mean over finite strictly positive CACs is
2 — the zero-CAC record is not excluded. -/
theorem avg_base_includes_nonpositive_counterexample :
    avg_d1_retained_cac_base [Flt.fin 0, Flt.fin 2] = 1 ∧
    avg_d1_retained_cac_spec [Flt.fin 0, Flt.fin 2] = 2 ∧
    avg_d1_retained_cac_base [Flt.fin 0, Flt.fin 2]
      ≠ avg_d1_retained_cac_spec [Flt.fin 0, Flt.fin 2] := by
  refine ⟨?_, ?_, ?_⟩ <;>
    norm_num [avg_d1_retained_cac_base, avg_d1_retained_cac_spec, listMean,
      Flt.toFin?, posFin?, List.filterMap_cons]

/-- C3 (amended): the ADAPTED processor's `get_summary_stats` computes
`avg_d1_retained_cac` as the arithmetic mean over exactly the records whose
`d1_retained_cac` is finite and strictly positive (excluding both the `+∞`
sentinel and every CAC ≤ 0); the base processor's variant excludes only
`+∞`. -/
theorem avg_adapted_eq_spec (cacs : List Flt) :
    avg_d1_retained_cac_adapted cacs = avg_d1_retained_cac_spec cacs := by
  simp only [avg_d1_retained_cac_adapted, avg_d1_retained_cac_spec]
  rw [valid_length_eq, valid_filterMap_eq]

/-- The base processor's composite-score weights
(`appsflyer_processor.py` lines 293-298), attached to whichever of the four
rank columns exist in the table: CAC 0.5, CPI 0.2, CPC 0.15, CTR 0.15.
Each entry pairs the rank value with its weight. -/
def available_rank_weights (a : Option ℚ × Option ℚ × Option ℚ × Option ℚ) :
    List (ℚ × ℚ) :=
  (match a.1 with | some r => [(r, (1 : ℚ) / 2)] | none => []) ++
  (match a.2.1 with | some r => [(r, (1 : ℚ) / 5)] | none => []) ++
  (match a.2.2.1 with | some r => [(r, (3 : ℚ) / 20)] | none => []) ++
  (match a.2.2.2 with | some r => [(r, (3 : ℚ) / 20)] | none => [])

/-- `total_weight = sum(available_ranks.values())`
(`appsflyer_processor.py` line 305). -/
def total_weight (a : Option ℚ × Option ℚ × Option ℚ × Option ℚ) : ℚ :=
  ((available_rank_weights a).map Prod.snd).sum

/-- The base processor's composite score (`appsflyer_processor.py` lines
306-308): the weight-scaled sum of the available ranks divided by the total
weight of the available metrics. -/
def composite_score_base (a : Option ℚ × Option ℚ × Option ℚ × Option ℚ) : ℚ :=
  ((available_rank_weights a).map (fun p => p.1 * p.2)).sum / total_weight a

lemma sum_map_div (L : List ℚ) (c : ℚ) :
    (L.map (fun w => w / c)).sum = L.sum / c := by
  induction L with
  | nil => simp
  | cons w t ih => simp [ih, add_div]

lemma total_weight_pos (a : Option ℚ × Option ℚ × Option ℚ × Option ℚ)
    (hne : available_rank_weights a ≠ []) : 0 < total_weight a := by
  obtain ⟨c, p, q, t⟩ := a
  cases c <;> cases p <;> cases q <;> cases t <;>
    simp [available_rank_weights, total_weight] at hne ⊢ <;> norm_num

/-- When the weight total is nonzero, dividing each weight by it
renormalizes the effective weights to sum to exactly 1. -/
lemma effective_weights_sum_one (a : Option ℚ × Option ℚ × Option ℚ × Option ℚ)
    (h : total_weight a ≠ 0) :
    ((available_rank_weights a).map (fun p => p.2 / total_weight a)).sum = 1 := by
  have hmm : (available_rank_weights a).map (fun p => p.2 / total_weight a)
      = ((available_rank_weights a).map Prod.snd).map
          (fun w => w / total_weight a) := by
    rw [List.map_map]
    rfl
  rw [hmm, sum_map_div]
  exact div_self h

/-- C5 (amended): the composite score is the weighted sum of the four
per-metric ranks with weights summing to 1; the CAC weight is a hardcoded
constant in each processor variant (0.4 adapted, 0.5 base — see the
counterexample theorem), and in the base variant missing rank columns are
excluded with the remaining weights renormalized to an effective sum of 1. -/
theorem composite_score_weighted_sum (l : List KpiRow) (i : ℕ)
    (hi : i < l.length) (hi' : i < (rank_content_performance l).length)
    (a : Option ℚ × Option ℚ × Option ℚ × Option ℚ)
    (hne : available_rank_weights a ≠ []) :
    ((rank_content_performance l).get ⟨i, hi'⟩).composite_score
      = ((rank_content_performance l).get ⟨i, hi'⟩).rank_d1_cac * (2 / 5)
        + ((rank_content_performance l).get ⟨i, hi'⟩).rank_cpi * (1 / 4)
        + ((rank_content_performance l).get ⟨i, hi'⟩).rank_cpc * (1 / 5)
        + ((rank_content_performance l).get ⟨i, hi'⟩).rank_ctr * (3 / 20) ∧
    ((2 : ℚ) / 5 + 1 / 4 + 1 / 5 + 3 / 20) = 1 ∧
    ((1 : ℚ) / 2 + 1 / 5 + 3 / 20 + 3 / 20) = 1 ∧
    0 < total_weight a ∧
    ((available_rank_weights a).map (fun p => p.2 / total_weight a)).sum = 1 ∧
    composite_score_base a
      = ((available_rank_weights a).map
          (fun p => p.1 * (p.2 / total_weight a))).sum := by
  have hpos := total_weight_pos a hne
  have hne0 : total_weight a ≠ 0 := ne_of_gt hpos
  refine ⟨?_, by norm_num, by norm_num, hpos, effective_weights_sum_one a hne0, ?_⟩
  · simp [rank_content_performance, List.get_eq_getElem, List.getElem_map,
      composite_score_adapted]
  · have hmm : (available_rank_weights a).map (fun p => p.1 * (p.2 / total_weight a))
        = ((available_rank_weights a).map (fun p => p.1 * p.2)).map
            (fun w => w / total_weight a) := by
      rw [List.map_map]
      apply List.map_congr_left
      intro p _
      simp only [Function.comp_apply]
      rw [mul_div_assoc]
    rw [hmm, sum_map_div]
    rfl

/-- Witness for `composite_score_weighted_sum`: one ranked row, and an
availability where only the CAC and CTR rank columns exist (weights 0.5 and
0.15, effective weights 10/13 and 3/13). -/
theorem composite_score_weighted_sum_witness :
    ((rank_content_performance [calculate_kpis ⟨10, 5, 4, 3, 2, 1⟩]).get
        ⟨0, by simp [rank_content_performance_length]⟩).composite_score
      = ((rank_content_performance [calculate_kpis ⟨10, 5, 4, 3, 2, 1⟩]).get
          ⟨0, by simp [rank_content_performance_length]⟩).rank_d1_cac * (2 / 5)
        + ((rank_content_performance [calculate_kpis ⟨10, 5, 4, 3, 2, 1⟩]).get
            ⟨0, by simp [rank_content_performance_length]⟩).rank_cpi * (1 / 4)
        + ((rank_content_performance [calculate_kpis ⟨10, 5, 4, 3, 2, 1⟩]).get
            ⟨0, by simp [rank_content_performance_length]⟩).rank_cpc * (1 / 5)
        + ((rank_content_performance [calculate_kpis ⟨10, 5, 4, 3, 2, 1⟩]).get
            ⟨0, by simp [rank_content_performance_length]⟩).rank_ctr * (3 / 20) ∧
    ((2 : ℚ) / 5 + 1 / 4 + 1 / 5 + 3 / 20) = 1 ∧
    ((1 : ℚ) / 2 + 1 / 5 + 3 / 20 + 3 / 20) = 1 ∧
    0 < total_weight (some 1, none, none, some 2) ∧
    ((available_rank_weights (some 1, none, none, some 2)).map
      (fun p => p.2 / total_weight (some 1, none, none, some 2))).sum = 1 ∧
    composite_score_base (some 1, none, none, some 2)
      = ((available_rank_weights (some 1, none, none, some 2)).map
          (fun p => p.1 * (p.2 / total_weight (some 1, none, none, some 2)))).sum :=
  composite_score_weighted_sum [calculate_kpis ⟨10, 5, 4, 3, 2, 1⟩] 0
    (by simp) (by simp [rank_content_performance_length])
    (some 1, none, none, some 2)
    (by simp [available_rank_weights])

/-- C5's "tunable configuration" clause is refuted: the CAC weight is a
different hardcoded literal in each processor variant — the adapted
composite of ranks (1, 0, 0, 0) is 0.4 while the base composite of the same
ranks (all four columns available) is 0.5, and no configuration input
exists that selects between them. -/
theorem composite_cac_weight_hardcoded_counterexample :
    composite_score_adapted 1 0 0 0 = 2 / 5 ∧
    composite_score_base (some 1, some 0, some 0, some 0) = 1 / 2 ∧
    composite_score_adapted 1 0 0 0
      ≠ composite_score_base (some 1, some 0, some 0, some 0) := by
  refine ⟨?_, ?_, ?_⟩ <;>
    norm_num [composite_score_adapted, composite_score_base,
      available_rank_weights, total_weight]

/-- Remove every occurrence of the character `c` from `s`: one literal
`str.replace(c, '')` pass. -/
def removeChar (c : Char) (s : String) : String :=
  ⟨s.toList.filter (fun d => !(d == c))⟩

/-- The two literal replacements
`str.replace('$', '').str.replace(',', '')` applied to a raw numeric cell
by `clean_and_normalize_columns` (`appsflyer_processor_adapted.py`
line 77). -/
def stripCurrency (s : String) : String := removeChar ',' (removeChar '$' s)

/-- Numeric value of a digit string, most significant digit first. -/
def digitsVal (cs : List Char) : ℕ :=
  cs.foldl (fun a c => 10 * a + (c.toNat - '0'.toNat)) 0

/-- Parse a plain decimal cell into (negative?, integer digits, fraction
digits, fraction length); `none` models the NaN that
`pd.to_numeric(..., errors='coerce')` yields on an unparseable cell. -/
def parseParts? (s : String) : Option (Bool × ℕ × ℕ × ℕ) :=
  let core : List Char → Option (ℕ × ℕ × ℕ) := fun cs =>
    let ip := cs.takeWhile (fun c => !(c == '.'))
    let rest := cs.drop ip.length
    if ip.all Char.isDigit then
      match rest with
      | [] => if ip.isEmpty then none else some (digitsVal ip, 0, 0)
      | '.' :: fp =>
          if fp.all Char.isDigit && (!ip.isEmpty || !fp.isEmpty) then
            some (digitsVal ip, digitsVal fp, fp.length)
          else none
      | _ => none
    else none
  match s.toList with
  | '-' :: t => (core t).map (fun p => (true, p))
  | '+' :: t => (core t).map (fun p => (false, p))
  | cs => (core cs).map (fun p => (false, p))

/-- The rational denoted by parsed number parts. -/
def ratOfParts : Bool × ℕ × ℕ × ℕ → ℚ
  | (neg, ip, fp, k) =>
      (if neg then -1 else 1) * ((ip : ℚ) + (fp : ℚ) / (10 : ℚ) ^ k)

/-- `pd.to_numeric(cell, errors='coerce')` on one already-stripped cell. -/
def to_numeric? (s : String) : Option ℚ := (parseParts? s).map ratOfParts

/-- One numeric cell of `clean_and_normalize_columns`: strip currency
symbols and thousands separators, parse, and coerce a failed parse to 0
(the trailing `.fillna(0)`). -/
def coerce_numeric (s : String) : ℚ := (to_numeric? (stripCurrency s)).getD 0

/-- C7: numeric normalization strips currency symbols and thousands
separators before parsing, so the cell `"$1,234.56"` is coerced to the
number 1234.56; a cell that parses after stripping keeps its numeric
value, and a cell that is still unparseable is coerced to 0 rather than
failing the row. -/
theorem coerce_numeric_spec (s : String) :
    coerce_numeric "$1,234.56" = 123456 / 100 ∧
    (to_numeric? (stripCurrency s) = none → coerce_numeric s = 0) ∧
    (∀ q : ℚ, to_numeric? (stripCurrency s) = some q → coerce_numeric s = q) := by
  refine ⟨?_, ?_, ?_⟩
  · have hp : parseParts? (stripCurrency "$1,234.56")
        = some (false, 1234, 56, 2) := by decide
    unfold coerce_numeric to_numeric?
    rw [hp]
    simp only [Option.map_some', Option.getD_some, ratOfParts]
    norm_num
  · intro h
    unfold coerce_numeric
    rw [h]
    rfl
  · intro q h
    unfold coerce_numeric
    rw [h]
    rfl

/-- Witness for `coerce_numeric_spec`: the unparseable cell `"abc"` coerces
to 0. -/
theorem coerce_numeric_spec_witness : coerce_numeric "abc" = 0 :=
  (coerce_numeric_spec "abc").2.1 (by decide)

/-- Python's substring test `pat in s`. -/
def containsSub (s pat : String) : Bool := decide (pat.toList <:+: s.toList)

/-- The categorical attributes inferred from one ad name. -/
structure CampaignInfo where
  media_type : String
  content_theme : String
  creative_type : String
  platform : String
deriving DecidableEq, Repr

/-- `extract_info` inside
`AppsflyerDataProcessorAdapted.extract_campaign_info_from_ad_name`
(`appsflyer_processor_adapted.py` lines 90-140); `none` models a NaN ad
name cell. -/
def extract_campaign_info : Option String → CampaignInfo
  | none => ⟨"unknown", "unknown", "unknown", "unknown"⟩
  | some s =>
      if s = "" then ⟨"unknown", "unknown", "unknown", "unknown"⟩
      else
        let l := s.toLower
        let media :=
          if containsSub l "ttcx" || containsSub l "tiktok" then "tiktok"
          else if containsSub l "meta" || containsSub l "facebook"
              || containsSub l "instagram" then "meta"
          else if containsSub l "echo" then "echo"
          else if containsSub l "spoon" then "spoon"
          else if containsSub l "innoceans" then "innoceans"
          else "unknown"
        let theme :=
          if containsSub l "participation" then "participation"
          else if containsSub l "blinddate" then "blinddate"
          else if containsSub l "interest" then "interest"
          else if containsSub l "tpo" then "tpo"
          else "general"
        let creative :=
          if containsSub l "vdo" || containsSub l "video" then "video"
          else if containsSub l "img" || containsSub l "image" then "image"
          else "video"
        ⟨media, theme, creative, "mixed"⟩

/-- `get_media_type` inside `AppsflyerDataProcessor.filter_target_media`
(`appsflyer_processor.py` lines 137-142): substring match of the lowered
media source against the supported-source tokens, else `other`. -/
def get_media_type (source : String) : String :=
  let l := source.toLower
  if containsSub l "tiktokads_int" || containsSub l "tiktok"
      || containsSub l "bytedanceglobal_int" then "tiktok"
  else if containsSub l "facebook" || containsSub l "facebook_int"
      || containsSub l "instagram" || containsSub l "instagram_int" then "meta"
  else "other"

/-- C8 is refuted on `content_theme`: for an empty ad name,
`extract_campaign_info` assigns `content_theme = "unknown"`, which is not
one of the five claimed enum values. -/
theorem content_theme_unknown_counterexample :
    (extract_campaign_info (some "")).content_theme = "unknown" ∧
    "unknown" ∉ ["participation", "blinddate", "interest", "tpo", "general"] := by
  exact ⟨rfl, by decide⟩

/-- C8 (amended): after normalization every record's `media_type`,
`content_theme` and `platform` are each one of finitely many enumerated
values for every possible ad-name input (including missing and empty
names), where `content_theme` additionally admits `"unknown"` (assigned
exactly to missing/empty ad names); the base processor's media
classification likewise only emits `tiktok`, `meta` or `other`. -/
theorem campaign_enum_invariant (ad : Option String) (src : String) :
    (extract_campaign_info ad).media_type
      ∈ ["tiktok", "meta", "echo", "spoon", "innoceans", "other", "unknown"] ∧
    (extract_campaign_info ad).content_theme
      ∈ ["participation", "blinddate", "interest", "tpo", "general", "unknown"] ∧
    (extract_campaign_info ad).platform ∈ ["AOS", "iOS", "mixed", "unknown"] ∧
    get_media_type src ∈ ["tiktok", "meta", "other", "unknown"] := by
  refine ⟨?_, ?_, ?_, ?_⟩
  · cases ad with
    | none => decide
    | some s =>
        simp only [extract_campaign_info]
        split_ifs <;> decide
  · cases ad with
    | none => decide
    | some s =>
        simp only [extract_campaign_info]
        split_ifs <;> decide
  · cases ad with
    | none => decide
    | some s =>
        simp only [extract_campaign_info]
        split_ifs <;> decide
  · simp only [get_media_type]
    split_ifs <;> decide

/-- One of the four logical sheets published by the updater. -/
inductive SheetKind where
  | mainData | summary | topPerformers | pivotTable
deriving DecidableEq, Repr

/-- The per-sheet outcome dictionary (`{'success': ..., 'error': ...}`). -/
structure SheetResult where
  success : Bool
  error : Option String
deriving DecidableEq, Repr

/-- The dictionary returned by `update_all_sheets`. -/
structure RunResult where
  overall_success : Bool
  individual_results : List (SheetKind × SheetResult)
  successful_sheets : ℕ
  total_sheets : ℕ
deriving DecidableEq, Repr

/-- `SheetsUpdater.update_all_sheets` (`sheets_updater.py` lines 313-344):
the four sheet updates run unconditionally in sequence (no early exit);
`overall_success = all(success flags)`, `successful_sheets` counts the
successes, `total_sheets = len(results)`.  The transport outcome of each
sheet is abstracted as `publish`. -/
def update_all_sheets (publish : SheetKind → SheetResult) : RunResult :=
  let results : List (SheetKind × SheetResult) :=
    [(SheetKind.mainData, publish SheetKind.mainData),
     (SheetKind.summary, publish SheetKind.summary),
     (SheetKind.topPerformers, publish SheetKind.topPerformers),
     (SheetKind.pivotTable, publish SheetKind.pivotTable)]
  { overall_success := results.all (fun r => r.2.success)
    individual_results := results
    successful_sheets := results.countP (fun r => r.2.success)
    total_sheets := results.length }

/-- C9: for every combination of per-sheet outcomes, `update_all_sheets`
records all four sheets' own results (one failure never suppresses the
others' attempts), returns `overall_success` equal to the conjunction of
the four success flags, and reports the count of succeeded sheets out of
the total of 4. -/
theorem update_all_sheets_spec (publish : SheetKind → SheetResult) :
    (update_all_sheets publish).individual_results
      = [(SheetKind.mainData, publish SheetKind.mainData),
         (SheetKind.summary, publish SheetKind.summary),
         (SheetKind.topPerformers, publish SheetKind.topPerformers),
         (SheetKind.pivotTable, publish SheetKind.pivotTable)] ∧
    ((update_all_sheets publish).overall_success = true ↔
      ∀ k : SheetKind, (publish k).success = true) ∧
    (update_all_sheets publish).overall_success
      = ((publish SheetKind.mainData).success
          && (publish SheetKind.summary).success
          && (publish SheetKind.topPerformers).success
          && (publish SheetKind.pivotTable).success) ∧
    (update_all_sheets publish).successful_sheets
      = [publish SheetKind.mainData, publish SheetKind.summary,
         publish SheetKind.topPerformers,
         publish SheetKind.pivotTable].countP (fun r => r.success) ∧
    (update_all_sheets publish).total_sheets = 4 := by
  refine ⟨rfl, ?_, ?_, ?_, rfl⟩
  · constructor
    · intro h k
      cases k <;> simp_all [update_all_sheets]
    · intro h
      simp [update_all_sheets, h SheetKind.mainData, h SheetKind.summary,
        h SheetKind.topPerformers, h SheetKind.pivotTable]
  · simp [update_all_sheets, Bool.and_assoc]
  · simp [update_all_sheets, List.countP_cons]

/-- The result of one HTTP call of the sheets client: `error` is the
`'error'` key of the response dictionary, absent on success. -/
structure CallResult where
  error : Option String
deriving DecidableEq, Repr

/-- `'error' in result` (`sheets_client.py` line 16). -/
def CallResult.isError (r : CallResult) : Bool := r.error.isSome

/-- `'429' in str(error_msg) or 'rate' in str(error_msg).lower()`
(`sheets_client.py` line 22). -/
def CallResult.isRateLimit (r : CallResult) : Bool :=
  match r.error with
  | some m => containsSub m "429" || containsSub m.toLower "rate"
  | none => false

/-- Generic-failure backoff `delay * (2 ** attempt)`
(`sheets_client.py` line 33). -/
def generic_wait (delay : ℚ) (attempt : ℕ) : ℚ := delay * 2 ^ attempt

/-- Rate-limit backoff `delay * (3 ** attempt) + 2`
(`sheets_client.py` line 24). -/
def rate_wait (delay : ℚ) (attempt : ℕ) : ℚ := delay * 3 ^ attempt + 2

/-- The backoff chosen for a failed call: the longer rate-limit schedule
when the error mentions 429/rate, the generic schedule otherwise. -/
def backoff_wait (delay : ℚ) (r : CallResult) (attempt : ℕ) : ℚ :=
  if r.isRateLimit then rate_wait delay attempt else generic_wait delay attempt

/-- The `retry_on_failure` loop (`sheets_client.py` lines 12-40) from
attempt number `attempt` with `remaining` attempts left: call `f attempt`;
return its result on success or when it was the final attempt, else sleep
the chosen backoff and retry.  Returns the final result, the number of
calls made, and the backoff schedule slept through.  (The `remaining = 0`
value is never used: the decorator is only applied with
`max_retries ≥ 1`.) -/
def retry_go (f : ℕ → CallResult) (delay : ℚ) :
    ℕ → ℕ → CallResult × ℕ × List ℚ
  | _, 0 => (⟨some "no attempt made"⟩, 0, [])
  | attempt, 1 => (f attempt, 1, [])
  | attempt, n + 2 =>
      let r := f attempt
      if r.isError then
        let res := retry_go f delay (attempt + 1) (n + 1)
        (res.1, res.2.1 + 1, backoff_wait delay r attempt :: res.2.2)
      else (r, 1, [])

/-- `retry_on_failure(max_retries, delay)` applied to the call sequence
`f` (the decorated function's successive results). -/
def retry_on_failure (max_retries : ℕ) (delay : ℚ) (f : ℕ → CallResult) :
    CallResult × ℕ × List ℚ :=
  retry_go f delay 0 max_retries

lemma retry_go_calls_le (f : ℕ → CallResult) (delay : ℚ) :
    ∀ rem att, (retry_go f delay att rem).2.1 ≤ rem := by
  intro rem
  induction rem using Nat.strong_induction_on with
  | _ rem ih =>
      match rem with
      | 0 => intro att; simp [retry_go]
      | 1 => intro att; simp [retry_go]
      | n + 2 =>
          intro att
          simp only [retry_go]
          split_ifs with h
          · have := ih (n + 1) (by omega) (att + 1)
            simp only []
            omega
          · simp

lemma retry_go_all_error (f : ℕ → CallResult) (delay : ℚ) :
    ∀ rem att, 1 ≤ rem →
      (∀ k, att ≤ k → k < att + rem → (f k).isError = true) →
      (retry_go f delay att rem).1 = f (att + rem - 1) ∧
      (retry_go f delay att rem).2.1 = rem ∧
      (retry_go f delay att rem).2.2
        = (List.range (rem - 1)).map
            (fun j => backoff_wait delay (f (att + j)) (att + j)) := by
  intro rem
  induction rem using Nat.strong_induction_on with
  | _ rem ih =>
      match rem with
      | 0 => intro att h; omega
      | 1 =>
          intro att _ _
          simp [retry_go]
      | n + 2 =>
          intro att _ herr
          have hfe : (f att).isError = true :=
            herr att le_rfl (by omega)
          have hrec := ih (n + 1) (by omega) (att + 1) (by omega)
            (fun k hk1 hk2 => herr k (by omega) (by omega))
          simp only [retry_go, hfe, if_true]
          refine ⟨?_, ?_, ?_⟩
          · rw [hrec.1]
            congr 1
            omega
          · rw [hrec.2.1]
          · rw [hrec.2.2]
            have hr : n + 2 - 1 = (n + 1 - 1) + 1 := by omega
            rw [hr, List.range_succ_eq_map]
            simp only [List.map_cons, List.map_map, Nat.add_zero]
            congr 1
            apply List.map_congr_left
            intro j _
            simp only [Function.comp_apply]
            have hadd : att + 1 + j = att + Nat.succ j := by omega
            rw [hadd]

/-- C10: a publish operation is retried at most `max_retries` times; when
every attempt errors, the LAST attempt's error result is returned to the
caller (never swallowed); each failed attempt sleeps the backoff schedule
selected by its error class, where the rate-limit (429) schedule is
strictly longer than the generic one at every attempt and both schedules
grow strictly (exponentially) with the attempt number. -/
theorem retry_on_failure_spec (max_retries : ℕ) (delay : ℚ) (f : ℕ → CallResult)
    (hmr : 1 ≤ max_retries) (hd : 0 < delay) :
    (retry_on_failure max_retries delay f).2.1 ≤ max_retries ∧
    ((∀ k, k < max_retries → (f k).isError = true) →
      (retry_on_failure max_retries delay f).1 = f (max_retries - 1) ∧
      (retry_on_failure max_retries delay f).2.2
        = (List.range (max_retries - 1)).map
            (fun j => backoff_wait delay (f j) j)) ∧
    (∀ att : ℕ, generic_wait delay att < rate_wait delay att) ∧
    (∀ att : ℕ, generic_wait delay att < generic_wait delay (att + 1) ∧
      rate_wait delay att < rate_wait delay (att + 1)) := by
  refine ⟨retry_go_calls_le f delay max_retries 0, ?_, ?_, ?_⟩
  · intro herr
    have h := retry_go_all_error f delay max_retries 0 hmr
      (fun k _ hk2 => herr k (by omega))
    refine ⟨?_, ?_⟩
    · rw [retry_on_failure, h.1]
      congr 1
      omega
    · rw [retry_on_failure, h.2.2]
      apply List.map_congr_left
      intro j _
      rw [Nat.zero_add]
  · intro att
    unfold generic_wait rate_wait
    have h23 : (2 : ℚ) ^ att ≤ 3 ^ att :=
      pow_le_pow_left (by norm_num) (by norm_num) att
    nlinarith
  · intro att
    have h2 : (0 : ℚ) < 2 ^ att := by positivity
    have h3 : (0 : ℚ) < 3 ^ att := by positivity
    constructor
    · unfold generic_wait
      rw [pow_succ]
      nlinarith
    · unfold rate_wait
      rw [pow_succ]
      nlinarith

/-- Witness for `retry_on_failure_spec`: three rate-limited attempts with
`delay = 1`; the loop stops after attempt 3 and returns that error. -/
theorem retry_on_failure_spec_witness :
    (retry_on_failure 3 1 (fun _ => ⟨some "429"⟩)).2.1 ≤ 3 ∧
    ((∀ k, k < 3 → ((fun _ : ℕ => (⟨some "429"⟩ : CallResult)) k).isError = true) →
      (retry_on_failure 3 1 (fun _ => ⟨some "429"⟩)).1
        = (fun _ : ℕ => (⟨some "429"⟩ : CallResult)) (3 - 1) ∧
      (retry_on_failure 3 1 (fun _ => ⟨some "429"⟩)).2.2
        = (List.range (3 - 1)).map
            (fun j => backoff_wait 1 ((fun _ : ℕ => (⟨some "429"⟩ : CallResult)) j) j)) ∧
    (∀ att : ℕ, generic_wait 1 att < rate_wait 1 att) ∧
    (∀ att : ℕ, generic_wait 1 att < generic_wait 1 (att + 1) ∧
      rate_wait 1 att < rate_wait 1 (att + 1)) :=
  retry_on_failure_spec 3 1 (fun _ => ⟨some "429"⟩) (by norm_num) (by norm_num)

end CSVBridge
